import Mathlib

/-!
# Verification of the traefik-fed aggregation pipeline

Shallow embedding of the Go sources of `chickenzord/traefik-fed`:

* `internal/traefik` (client types and `FilterRouters`),
* `internal/aggregator/aggregator.go` (`Aggregate`, `aggregateUpstream`),
* the second revision of `aggregateUpstream` appearing in
  `internal/config/config.go` (the variant that applies configured
  router defaults),
* the configuration types of `internal/config/config.go`,
* the snapshot delivery of `cmd/traefik-fed/main.go` (`runAggregation`'s
  non-blocking send into the capacity-one file-writer channel).

Go strings are modelled as Lean `String`s (character-level; all string
constants involved are ASCII, so Go's byte indices and rune indices
coincide).  Go maps (`map[string]*T`) are modelled as association lists
with overwrite-on-insert semantics, matching Go map assignment.
Fallible upstream fetches (`client.GetRouters()`) are modelled by a
function `fetch : String → Except String (List RouterInfo)` indexed by
upstream name.
-/

set_option autoImplicit false

namespace TraefikFed

/-! ## Data model -/

/-- One TLS domain, as in traefik's `types.Domain` (`Main`, `SANs`). -/
structure Domain where
  main : String
  sans : List String
  deriving DecidableEq, Repr

/-- Traefik's `dynamic.RouterTLSConfig` (`Options`, `CertResolver`, `Domains`). -/
structure RouterTLSConfig where
  options : String
  certResolver : String
  domains : List Domain
  deriving DecidableEq, Repr

/-- `traefik.RouterInfo` from `internal/traefik`: one router as reported
by an upstream's admin API. -/
structure RouterInfo where
  entryPoints : List String
  middlewares : List String
  service : String
  rule : String
  ruleSyntax : String
  priority : Int
  status : String
  usingEntryPoints : List String
  name : String
  provider : String
  tls : Option RouterTLSConfig
  deriving DecidableEq, Repr

/-- A published router, traefik's `dynamic.Router` restricted to the fields
the aggregator writes (`Rule`, `Service`, `EntryPoints`, `Middlewares`,
`TLS`).  Go zero values: empty slices and nil TLS. -/
structure Router where
  entryPoints : List String
  middlewares : List String
  rule : String
  service : String
  tls : Option RouterTLSConfig
  deriving DecidableEq, Repr

/-- One load-balancer server (`dynamic.Server`), holding the target URL. -/
structure Server where
  url : String
  deriving DecidableEq, Repr

/-- `dynamic.ServersLoadBalancer`, restricted to its `Servers` list. -/
structure ServersLoadBalancer where
  servers : List Server
  deriving DecidableEq, Repr

/-- A published service (`dynamic.Service`); the aggregator only ever sets
the `LoadBalancer` field. -/
structure Service where
  loadBalancer : Option ServersLoadBalancer
  deriving DecidableEq, Repr

/-- `config.Upstream`: one Traefik instance to poll. -/
structure Upstream where
  name : String
  adminURL : String
  serverURL : String
  deriving DecidableEq, Repr

/-- `config.RouterSelector`: filtering criteria for routers. -/
structure RouterSelector where
  provider : String
  status : String
  deriving DecidableEq, Repr

/-- `config.RouterDefaults`: default values applied to generated routers. -/
structure RouterDefaults where
  entryPoints : List String
  middlewares : List String
  tls : Option RouterTLSConfig
  deriving DecidableEq, Repr

/-- `config.RouterConfig`: selector plus defaults. -/
structure RouterConfig where
  selector : RouterSelector
  defaults : RouterDefaults
  deriving DecidableEq, Repr

/-! ## Association maps with Go map-assignment semantics -/

/-- Go map assignment `m[k] = v`: replace the binding of `k` in place if it
exists, otherwise append a fresh binding. -/
def mapInsert {α : Type} (m : List (String × α)) (k : String) (v : α) :
    List (String × α) :=
  match m with
  | [] => [(k, v)]
  | (k2, v2) :: rest =>
      if k2 = k then (k2, v) :: rest else (k2, v2) :: mapInsert rest k v

/-- Go map lookup `m[k]` (first—and, after `mapInsert`, only—binding). -/
def mapLookup {α : Type} (m : List (String × α)) (k : String) : Option α :=
  match m with
  | [] => none
  | (k2, v2) :: rest => if k2 = k then some v2 else mapLookup rest k

/-- Key membership in a Go map. -/
def containsKey {α : Type} (m : List (String × α)) (k : String) : Bool :=
  match m with
  | [] => false
  | (k2, _) :: rest => k2 = k || containsKey rest k

/-- `dynamic.HTTPConfiguration` restricted to the two maps the aggregator
fills: `Routers` and `Services`. -/
structure HTTPConfiguration where
  routers : List (String × Router)
  services : List (String × Service)
  deriving DecidableEq, Repr

/-- The fresh configuration built at the top of `Aggregate`
(`aggregator.go` lines 38–41): both maps empty. -/
def emptyHTTPConfiguration : HTTPConfiguration :=
  { routers := [], services := [] }

/-! ## Filter engine (`internal/traefik`, `FilterRouters`) -/

/-- The loop body of `FilterRouters`: `true` iff the router is kept.
Mirrors the three `continue` guards of the Go loop. -/
def keepRouter (router : RouterInfo) (provider status : String) : Bool :=
  if router.provider = "internal" then false
  else if provider ≠ "" ∧ router.provider ≠ provider then false
  else if status ≠ "" ∧ router.status ≠ status then false
  else true

/-- `traefik.FilterRouters(routers, provider, status)`: filters routers
based on provider and status, preserving input order. -/
def FilterRouters (routers : List RouterInfo) (provider status : String) :
    List RouterInfo :=
  routers.filter (fun router => keepRouter router provider status)

/-! ## Router naming (`aggregateUpstream`, both revisions) -/

/-- Embedding of Go `strings.Index(s, c)` at character level, as an
`Option Nat` instead of the `-1` sentinel: index of the first occurrence. -/
def charIndex : List Char → Char → Option Nat
  | [], _ => none
  | c :: rest, target =>
      if c = target then some 0 else (charIndex rest target).map (· + 1)

/-- The provider-suffix trim of `aggregateUpstream`
(`aggregator.go` lines 90–93): `baseName := router.Name;
if idx := strings.Index(baseName, "@"); idx != -1 { baseName = baseName[:idx] }`. -/
def baseNameOf (name : String) : String :=
  match charIndex name.data '@' with
  | some idx => String.mk (name.data.take idx)
  | none => name

/-- `fmt.Sprintf("%s-%s", upstream.Name, baseName)`
(`aggregator.go` line 96): the published router key. -/
def routerNameOf (upstreamName routerName2 : String) : String :=
  upstreamName ++ "-" ++ baseNameOf routerName2

/-- `fmt.Sprintf("%s-traefik", upstream.Name)` (`aggregator.go` line 76):
the published service key for one upstream. -/
def serviceNameOf (upstreamName : String) : String :=
  upstreamName ++ "-traefik"

/-- The service value built for one upstream (`aggregator.go` lines 77–85):
one load balancer with a single server at the upstream's `ServerURL`. -/
def upstreamService (upstream : Upstream) : Service :=
  { loadBalancer := some { servers := [{ url := upstream.serverURL }] } }

/-! ## Published router construction, revision A
(`src/internal/aggregator/aggregator.go`, lines 98–109): entry points and
middlewares are copied verbatim from the remote router; TLS is copied from
the remote router when present.  Configured defaults are never consulted. -/

/-- The `newRouter` built by `aggregateUpstream` in
`src/internal/aggregator/aggregator.go`: `Rule`, `Service`, and the remote
router's own `EntryPoints`/`Middlewares`; then
`if router.TLS != nil { newRouter.TLS = router.TLS }`. -/
def newRouterA (serviceName : String) (router : RouterInfo) : Router :=
  let base : Router :=
    { rule := router.rule
      service := serviceName
      entryPoints := router.entryPoints
      middlewares := router.middlewares
      tls := none }
  if router.tls.isSome then { base with tls := router.tls } else base

/-! ## Published router construction, revision B
(the `aggregateUpstream` revision embedded in
`src/internal/config/config.go`, lines 244–264): defaults replace-or-drop
for entry points and middlewares, defaults-win-else-router for TLS. -/

/-- The `newRouter` built by the config-defaults revision of
`aggregateUpstream`: starts from `Rule` and `Service` only (zero-valued
slices and TLS), then applies `Defaults.EntryPoints`/`Defaults.Middlewares`
when non-empty, then `Defaults.TLS` if present else the router's own TLS. -/
def newRouterB (defaults : RouterDefaults) (serviceName : String)
    (router : RouterInfo) : Router :=
  let base : Router :=
    { rule := router.rule
      service := serviceName
      entryPoints := []
      middlewares := []
      tls := none }
  let step1 :=
    if defaults.entryPoints.length > 0 then
      { base with entryPoints := defaults.entryPoints }
    else base
  let step2 :=
    if defaults.middlewares.length > 0 then
      { step1 with middlewares := defaults.middlewares }
    else step1
  if defaults.tls.isSome then { step2 with tls := defaults.tls }
  else if router.tls.isSome then { step2 with tls := router.tls }
  else step2

/-! ## Aggregation, revision A (`src/internal/aggregator/aggregator.go`) -/

/-- The inner router loop of revision A's `aggregateUpstream`
(`aggregator.go` lines 88–112): for each filtered router, assign
`httpConfig.Routers[routerName] = newRouter`. -/
def addRoutersA (serviceName upstreamName : String) :
    List RouterInfo → HTTPConfiguration → HTTPConfiguration
  | [], acc => acc
  | router :: rest, acc =>
      addRoutersA serviceName upstreamName rest
        { acc with
          routers := mapInsert acc.routers
            (routerNameOf upstreamName router.name)
            (newRouterA serviceName router) }

/-- Revision A's `aggregateUpstream(upstream, httpConfig)`
(`aggregator.go` lines 57–116): fetch, filter, and—when the filtered set is
non-empty—install the upstream service and one router per survivor.
The fetch is supplied as `fetch`, indexed by upstream name, mirroring
`a.clients[upstream.Name].GetRouters()`. -/
def aggregateUpstreamA (cfg : RouterConfig)
    (fetch : String → Except String (List RouterInfo)) (upstream : Upstream)
    (httpConfig : HTTPConfiguration) : Except String HTTPConfiguration :=
  match fetch upstream.name with
  | .error e => .error ("failed to fetch routers: " ++ e)
  | .ok routers =>
      let filteredRouters :=
        FilterRouters routers cfg.selector.provider cfg.selector.status
      if filteredRouters.length > 0 then
        let serviceName := serviceNameOf upstream.name
        let withService :=
          { httpConfig with
            services := mapInsert httpConfig.services serviceName
              (upstreamService upstream) }
        .ok (addRoutersA serviceName upstream.name filteredRouters withService)
      else
        .ok httpConfig

/-- The body of the upstream loop of `Aggregate` (`aggregator.go` lines
44–50): on a per-upstream error, log and `continue` with the configuration
unchanged; otherwise carry the updated configuration. -/
def stepA (cfg : RouterConfig)
    (fetch : String → Except String (List RouterInfo)) (upstream : Upstream)
    (acc : HTTPConfiguration) : HTTPConfiguration :=
  match aggregateUpstreamA cfg fetch upstream acc with
  | .ok newAcc => newAcc
  | .error _ => acc

/-- The upstream loop of `Aggregate` (`aggregator.go` lines 43–51). -/
def aggregateAllA (cfg : RouterConfig)
    (fetch : String → Except String (List RouterInfo)) :
    List Upstream → HTTPConfiguration → HTTPConfiguration
  | [], acc => acc
  | upstream :: rest, acc =>
      aggregateAllA cfg fetch rest (stepA cfg fetch upstream acc)

/-- Revision A's `Aggregate()` (`aggregator.go` lines 37–54): start from
empty maps, fold the upstream loop, and return `(httpConfig, nil)` — the
error component is always `nil`, modelled as always `.ok`. -/
def AggregateA (upstreams : List Upstream) (cfg : RouterConfig)
    (fetch : String → Except String (List RouterInfo)) :
    Except String HTTPConfiguration :=
  .ok (aggregateAllA cfg fetch upstreams emptyHTTPConfiguration)

/-! ## Aggregation, revision B (the `aggregateUpstream` revision embedded in
`src/internal/config/config.go`): identical service and naming logic, but
routers are built by `newRouterB` (configured defaults applied). -/

/-- The inner router loop of revision B's `aggregateUpstream`
(`config.go` lines 234–267). -/
def addRoutersB (defaults : RouterDefaults) (serviceName upstreamName : String) :
    List RouterInfo → HTTPConfiguration → HTTPConfiguration
  | [], acc => acc
  | router :: rest, acc =>
      addRoutersB defaults serviceName upstreamName rest
        { acc with
          routers := mapInsert acc.routers
            (routerNameOf upstreamName router.name)
            (newRouterB defaults serviceName router) }

/-- Revision B's `aggregateUpstream` (`config.go` lines 191–271). -/
def aggregateUpstreamB (cfg : RouterConfig)
    (fetch : String → Except String (List RouterInfo)) (upstream : Upstream)
    (httpConfig : HTTPConfiguration) : Except String HTTPConfiguration :=
  match fetch upstream.name with
  | .error e => .error ("failed to fetch routers: " ++ e)
  | .ok routers =>
      let filteredRouters :=
        FilterRouters routers cfg.selector.provider cfg.selector.status
      if filteredRouters.length > 0 then
        let serviceName := serviceNameOf upstream.name
        let withService :=
          { httpConfig with
            services := mapInsert httpConfig.services serviceName
              (upstreamService upstream) }
        .ok (addRoutersB cfg.defaults serviceName upstream.name
          filteredRouters withService)
      else
        .ok httpConfig

/-- The body of revision B's upstream loop (`config.go` lines 178–184). -/
def stepB (cfg : RouterConfig)
    (fetch : String → Except String (List RouterInfo)) (upstream : Upstream)
    (acc : HTTPConfiguration) : HTTPConfiguration :=
  match aggregateUpstreamB cfg fetch upstream acc with
  | .ok newAcc => newAcc
  | .error _ => acc

/-- Revision B's upstream loop (`config.go` lines 177–185). -/
def aggregateAllB (cfg : RouterConfig)
    (fetch : String → Except String (List RouterInfo)) :
    List Upstream → HTTPConfiguration → HTTPConfiguration
  | [], acc => acc
  | upstream :: rest, acc =>
      aggregateAllB cfg fetch rest (stepB cfg fetch upstream acc)

/-- Revision B's `Aggregate()` (`config.go` lines 171–188). -/
def AggregateB (upstreams : List Upstream) (cfg : RouterConfig)
    (fetch : String → Except String (List RouterInfo)) :
    Except String HTTPConfiguration :=
  .ok (aggregateAllB cfg fetch upstreams emptyHTTPConfiguration)

/-! ## Key traces -/

/-- One upstream's selected router set during a cycle: the result of
fetch-then-filter (`aggregator.go` lines 61–67), empty when the fetch
fails (a failed upstream contributes nothing). -/
def selectedRouters (cfg : RouterConfig)
    (fetch : String → Except String (List RouterInfo)) (upstream : Upstream) :
    List RouterInfo :=
  match fetch upstream.name with
  | .error _ => []
  | .ok routers =>
      FilterRouters routers cfg.selector.provider cfg.selector.status

/-- The sequence of router keys assigned by one upstream during a cycle:
the keys written at `aggregator.go` line 111, in loop order. -/
def upstreamRouterKeys (cfg : RouterConfig)
    (fetch : String → Except String (List RouterInfo)) (upstream : Upstream) :
    List String :=
  (selectedRouters cfg fetch upstream).map
    (fun router => routerNameOf upstream.name router.name)

/-- The provider-stripped base names of one upstream's selected routers,
in loop order (`aggregator.go` lines 90–93). -/
def upstreamBaseNames (cfg : RouterConfig)
    (fetch : String → Except String (List RouterInfo)) (upstream : Upstream) :
    List String :=
  (selectedRouters cfg fetch upstream).map (fun router => baseNameOf router.name)

/-- All router keys assigned during one aggregation cycle, with
multiplicity, in assignment order. -/
def publishedRouterKeys (upstreams : List Upstream) (cfg : RouterConfig)
    (fetch : String → Except String (List RouterInfo)) : List String :=
  upstreams.flatMap (upstreamRouterKeys cfg fetch)

/-! ## Snapshot delivery to the file writer
(`cmd/traefik-fed/main.go`): `fileConfigChan` is a buffered channel of
capacity one (line 80); `runAggregation` sends into it with
`select { case fileConfigChan <- httpConfig: default: }` (lines 134–140). -/

/-- State of the capacity-one channel buffer: at most one pending snapshot. -/
def fileChanCapacity : Nat := 1

/-- The non-blocking send of `runAggregation` (lines 135–139): if the
buffer has room, enqueue the snapshot; otherwise the `default` branch is
taken and this update is skipped. -/
def sendNonBlocking (buffer : List HTTPConfiguration)
    (snapshot : HTTPConfiguration) : List HTTPConfiguration :=
  if buffer.length < fileChanCapacity then buffer ++ [snapshot] else buffer

/-! ## Spec-side selection predicate (for the refinement comparison) -/

/-- The selection contract exactly as the spec/claim words it: keep the
routers that (1) do not have provider `"internal"`, (2) have provider equal
to the criteria provider whenever that is non-empty, and (3) have status
equal to the criteria status (unconditionally).  To be compared against
`FilterRouters`, which only enforces (3) when the status criterion is
non-empty. -/
def selectSpec (routers : List RouterInfo) (provider status : String) :
    List RouterInfo :=
  routers.filter (fun router =>
    decide (router.provider ≠ "internal")
      && (decide (provider = "") || decide (router.provider = provider))
      && decide (router.status = status))

/-! ## Concrete fixtures used by witnesses and counterexamples -/

/-- A TLS reference with a cert resolver, as in the spec's merge example. -/
def exTLS : RouterTLSConfig :=
  { options := "", certResolver := "letsencrypt", domains := [] }

/-- Upstream `host1` of the spec's end-to-end scenario. -/
def exUpstream1 : Upstream :=
  { name := "host1", adminURL := "http://10.0.0.1:8080"
    serverURL := "http://10.0.0.1:80" }

/-- Upstream `host2` of the spec's end-to-end scenario. -/
def exUpstream2 : Upstream :=
  { name := "host2", adminURL := "http://10.0.0.2:8080"
    serverURL := "http://10.0.0.2:80" }

/-- An enabled docker router named `webapp@docker` carrying its own entry
points and middlewares. -/
def exRouterWebapp : RouterInfo :=
  { entryPoints := ["web"], middlewares := ["compress"], service := "webapp"
    rule := "Host(app)", ruleSyntax := "", priority := 0, status := "enabled"
    usingEntryPoints := ["web"], name := "webapp@docker", provider := "docker"
    tls := none }

/-- An enabled docker router named `api@docker`. -/
def exRouterApi : RouterInfo :=
  { entryPoints := ["web"], middlewares := [], service := "api"
    rule := "Host(api)", ruleSyntax := "", priority := 0, status := "enabled"
    usingEntryPoints := ["web"], name := "api@docker", provider := "docker"
    tls := none }

/-- An enabled router named `x@docker` (provider `docker`). -/
def exRouterXDocker : RouterInfo :=
  { entryPoints := [], middlewares := [], service := "x"
    rule := "Host(x)", ruleSyntax := "", priority := 0, status := "enabled"
    usingEntryPoints := [], name := "x@docker", provider := "docker"
    tls := none }

/-- An enabled router named `x@file` (provider `file`): a distinct remote
name that strips to the same base name as `x@docker`. -/
def exRouterXFile : RouterInfo :=
  { entryPoints := [], middlewares := [], service := "x"
    rule := "Host(x2)", ruleSyntax := "", priority := 0, status := "enabled"
    usingEntryPoints := [], name := "x@file", provider := "file"
    tls := none }

/-- Selector with no provider criterion and status `enabled` (the
configuration default). -/
def exSelector : RouterSelector := { provider := "", status := "enabled" }

/-- Empty merge defaults: no entry points, no middlewares, no TLS. -/
def exDefaultsEmpty : RouterDefaults :=
  { entryPoints := [], middlewares := [], tls := none }

/-- Non-empty merge defaults, as in the spec's end-to-end scenario. -/
def exDefaultsFull : RouterDefaults :=
  { entryPoints := ["websecure"], middlewares := ["auth"], tls := some exTLS }

/-- Router configuration with empty defaults. -/
def exCfgEmptyDefaults : RouterConfig :=
  { selector := exSelector, defaults := exDefaultsEmpty }

/-- Router configuration with the full defaults. -/
def exCfgFullDefaults : RouterConfig :=
  { selector := exSelector, defaults := exDefaultsFull }

/-- A fetch in which `host1` reports `webapp@docker` and `host2` reports
`api@docker`. -/
def exFetchBoth : String → Except String (List RouterInfo) :=
  fun name =>
    if name = "host1" then .ok [exRouterWebapp]
    else if name = "host2" then .ok [exRouterApi]
    else .error "unknown upstream"

/-- A fetch in which `host1` reports the two routers whose names strip to
the same base name. -/
def exFetchCollide : String → Except String (List RouterInfo) :=
  fun name =>
    if name = "host1" then .ok [exRouterXDocker, exRouterXFile]
    else .error "unknown upstream"

/-- A fetch that fails for every upstream. -/
def exFetchFail : String → Except String (List RouterInfo) :=
  fun _ => .error "connection refused"

/-- The same responses as `exFetchBoth`, tested in the opposite order:
extensionally equal to `exFetchBoth` but a syntactically different
function. -/
def exFetchBothSwapped : String → Except String (List RouterInfo) :=
  fun name =>
    if name = "host2" then .ok [exRouterApi]
    else if name = "host1" then .ok [exRouterWebapp]
    else .error "unknown upstream"

/-- A non-empty snapshot, distinct from `emptyHTTPConfiguration`. -/
def exSnapshot2 : HTTPConfiguration :=
  { routers := [("host1-webapp",
      { entryPoints := [], middlewares := [], rule := "Host(app)"
        service := "host1-traefik", tls := none })]
    services := [] }

/-! ## Lemmas about the Go-map model -/

theorem mapLookup_mapInsert_self {α : Type} (m : List (String × α)) (k : String)
    (v : α) : mapLookup (mapInsert m k v) k = some v := by
  induction m with
  | nil => simp [mapInsert, mapLookup]
  | cons head rest ih =>
      obtain ⟨kh, vh⟩ := head
      by_cases h : kh = k
      · simp [mapInsert, mapLookup, h]
      · simp [mapInsert, mapLookup, h, ih]

theorem mapLookup_mapInsert_ne {α : Type} (m : List (String × α)) (k k2 : String)
    (v : α) (h : k2 ≠ k) :
    mapLookup (mapInsert m k2 v) k = mapLookup m k := by
  induction m with
  | nil => simp [mapInsert, mapLookup, h]
  | cons head rest ih =>
      obtain ⟨kh, vh⟩ := head
      by_cases h2 : kh = k2
      · subst h2
        simp [mapInsert, mapLookup, h]
      · by_cases h3 : kh = k
        · simp [mapInsert, mapLookup, h2, h3, Ne.symm h]
        · simp [mapInsert, mapLookup, h2, h3, ih]

theorem containsKey_eq_isSome {α : Type} (m : List (String × α)) (k : String) :
    containsKey m k = (mapLookup m k).isSome := by
  induction m with
  | nil => simp [containsKey, mapLookup]
  | cons head rest ih =>
      obtain ⟨kh, vh⟩ := head
      by_cases h : kh = k
      · simp [containsKey, mapLookup, h]
      · simp [containsKey, mapLookup, h, ih]

theorem containsKey_mapInsert {α : Type} (m : List (String × α)) (k k2 : String)
    (v : α) :
    containsKey (mapInsert m k2 v) k = (decide (k2 = k) || containsKey m k) := by
  induction m with
  | nil => simp [mapInsert, containsKey]
  | cons head rest ih =>
      obtain ⟨kh, vh⟩ := head
      by_cases h2 : kh = k2
      · subst h2
        by_cases h3 : kh = k <;> simp [mapInsert, containsKey, h3]
      · by_cases h3 : kh = k
        · have h4 : ¬k = k2 := fun hh => h2 (h3.symm ▸ hh ▸ rfl)
          simp [mapInsert, containsKey, h2, h3, h4]
        · simp [mapInsert, containsKey, h2, h3, ih]

theorem mem_mapInsert {α : Type} (m : List (String × α)) (k2 : String) (v2 : α)
    (k : String) (v : α) (h : (k, v) ∈ mapInsert m k2 v2) :
    (k = k2 ∧ v = v2) ∨ (k, v) ∈ m := by
  induction m with
  | nil =>
      simp [mapInsert] at h
      exact Or.inl h
  | cons head rest ih =>
      obtain ⟨kh, vh⟩ := head
      by_cases h2 : kh = k2
      · subst h2
        simp [mapInsert] at h
        rcases h with h | h
        · exact Or.inl ⟨h.1.symm ▸ rfl, h.2⟩
        · exact Or.inr (List.mem_cons_of_mem _ h)
      · simp [mapInsert, h2] at h
        rcases h with h | h
        · exact Or.inr (by simp [h])
        · rcases ih h with h3 | h3
          · exact Or.inl h3
          · exact Or.inr (List.mem_cons_of_mem _ h3)

/-! ## String lemmas for key injectivity -/

theorem string_append_cancel_left (s t1 t2 : String) (h : s ++ t1 = s ++ t2) :
    t1 = t2 := by
  apply String.ext
  have h2 := congrArg String.data h
  simp only [String.data_append] at h2
  exact List.append_cancel_left h2

theorem string_append_cancel_right (s1 s2 t : String) (h : s1 ++ t = s2 ++ t) :
    s1 = s2 := by
  apply String.ext
  have h2 := congrArg String.data h
  simp only [String.data_append] at h2
  exact List.append_cancel_right h2

/-- A character that separates hyphen-free prefixes: if two hyphen-free
character lists are glued to suffixes with `'-'`, equal results force equal
parts. -/
theorem hyphen_sep_list (a : List Char) : ∀ (b c d : List Char),
    '-' ∉ a → '-' ∉ b → a ++ '-' :: c = b ++ '-' :: d → a = b ∧ c = d := by
  induction a with
  | nil =>
      intro b c d _ hb h
      cases b with
      | nil => simpa using h
      | cons x b2 =>
          simp only [List.nil_append, List.cons_append, List.cons.injEq] at h
          exact absurd (h.1 ▸ List.mem_cons_self x b2) hb
  | cons x a2 ih =>
      intro b c d ha hb h
      cases b with
      | nil =>
          simp only [List.cons_append, List.nil_append, List.cons.injEq] at h
          exact absurd (h.1 ▸ List.mem_cons_self x a2) ha
      | cons y b2 =>
          simp only [List.cons_append, List.cons.injEq] at h
          have ha2 : '-' ∉ a2 := fun hm => ha (List.mem_cons_of_mem x hm)
          have hb2 : '-' ∉ b2 := fun hm => hb (List.mem_cons_of_mem y hm)
          obtain ⟨h1, h2⟩ := ih b2 c d ha2 hb2 h.2
          exact ⟨by rw [h.1, h1], h2⟩

/-- `(u ++ "-" ++ b).data` written with an explicit separating hyphen. -/
theorem data_append_hyphen (u b : String) :
    (u ++ "-" ++ b).data = u.data ++ '-' :: b.data := by
  simp [String.data_append]

/-- Two upstream-prefixed keys with hyphen-free prefixes agree exactly when
both parts agree. -/
theorem append_hyphen_inj (a b c d : String) (ha : '-' ∉ a.data)
    (hb : '-' ∉ b.data) (h : a ++ "-" ++ c = b ++ "-" ++ d) : a = b ∧ c = d := by
  have h2 := congrArg String.data h
  rw [data_append_hyphen, data_append_hyphen] at h2
  obtain ⟨h3, h4⟩ := hyphen_sep_list a.data b.data c.data d.data ha hb h2
  exact ⟨String.ext h3, String.ext h4⟩

/-- The published service keys of two upstreams agree exactly when the
upstream names agree. -/
theorem serviceNameOf_inj (u1 u2 : String)
    (h : serviceNameOf u1 = serviceNameOf u2) : u1 = u2 := by
  unfold serviceNameOf at h
  exact string_append_cancel_right u1 u2 "-traefik" h

/-! ## The provider-suffix trim, characterized by `takeWhile` -/

/-- Truncating at the first occurrence of a character is taking the longest
prefix free of it. -/
theorem take_charIndex_eq_takeWhile (l : List Char) (target : Char) :
    (match charIndex l target with
     | some idx => l.take idx
     | none => l) = l.takeWhile (fun c => c != target) := by
  induction l with
  | nil => simp [charIndex]
  | cons c rest ih =>
      by_cases h : c = target
      · subst h
        simp [charIndex, List.takeWhile]
      · have hbne : (c != target) = true := by simp [bne_iff_ne, h]
        cases hidx : charIndex rest target with
        | none =>
            have ih2 : rest = rest.takeWhile (fun c2 => c2 != target) := by
              rw [hidx] at ih; exact ih
            simp only [charIndex, if_neg h, hidx, Option.map_none', List.takeWhile,
              hbne]
            exact congrArg (c :: ·) ih2
        | some i =>
            have ih2 : rest.take i = rest.takeWhile (fun c2 => c2 != target) := by
              rw [hidx] at ih; exact ih
            simp only [charIndex, if_neg h, hidx, Option.map_some', List.takeWhile,
              hbne, List.take_succ_cons]
            exact congrArg (c :: ·) ih2

/-- `baseNameOf` drops everything from the first `'@'` onward. -/
theorem baseNameOf_eq_takeWhile (name : String) :
    baseNameOf name = String.mk (name.data.takeWhile (fun c => c != '@')) := by
  unfold baseNameOf
  have h := take_charIndex_eq_takeWhile name.data '@'
  cases hidx : charIndex name.data '@' with
  | none =>
      rw [hidx] at h
      exact String.ext (by simpa using h)
  | some i =>
      rw [hidx] at h
      exact String.ext (by simpa using h)

/-! ## Structure lemmas for the aggregation loop, revision A -/

theorem addRoutersA_services (serviceName upstreamName : String)
    (routers : List RouterInfo) (acc : HTTPConfiguration) :
    (addRoutersA serviceName upstreamName routers acc).services = acc.services := by
  induction routers generalizing acc with
  | nil => rfl
  | cons r rest ih => simp [addRoutersA, ih]

/-- One iteration of the upstream loop, normalized: nothing happens when
the selected set is empty (in particular on fetch failure); otherwise the
upstream service is installed and the selected routers are added. -/
theorem stepA_eq (cfg : RouterConfig)
    (fetch : String → Except String (List RouterInfo)) (upstream : Upstream)
    (acc : HTTPConfiguration) :
    stepA cfg fetch upstream acc =
      if selectedRouters cfg fetch upstream = [] then acc
      else
        addRoutersA (serviceNameOf upstream.name) upstream.name
          (selectedRouters cfg fetch upstream)
          { acc with
            services := mapInsert acc.services (serviceNameOf upstream.name)
              (upstreamService upstream) } := by
  unfold stepA aggregateUpstreamA selectedRouters
  cases hf : fetch upstream.name with
  | error e => simp
  | ok routers =>
      by_cases hemp :
          FilterRouters routers cfg.selector.provider cfg.selector.status = []
      · simp [hemp]
      · have hlen :
            0 < (FilterRouters routers cfg.selector.provider
              cfg.selector.status).length :=
          List.length_pos.mpr hemp
        simp [hemp, hlen]

theorem aggregateAllA_cons (cfg : RouterConfig)
    (fetch : String → Except String (List RouterInfo)) (upstream : Upstream)
    (rest : List Upstream) (acc : HTTPConfiguration) :
    aggregateAllA cfg fetch (upstream :: rest) acc =
      aggregateAllA cfg fetch rest (stepA cfg fetch upstream acc) := rfl

theorem containsKey_addRoutersA_routers (serviceName upstreamName : String)
    (routers : List RouterInfo) (acc : HTTPConfiguration) (k : String)
    (h : containsKey acc.routers k = true) :
    containsKey (addRoutersA serviceName upstreamName routers acc).routers k
      = true := by
  induction routers generalizing acc with
  | nil => exact h
  | cons r rest ih =>
      simp only [addRoutersA]
      apply ih
      simp [containsKey_mapInsert, h]

theorem containsKey_addRoutersA_of_mem (serviceName upstreamName : String)
    (routers : List RouterInfo) (acc : HTTPConfiguration) (r : RouterInfo)
    (hr : r ∈ routers) :
    containsKey (addRoutersA serviceName upstreamName routers acc).routers
      (routerNameOf upstreamName r.name) = true := by
  induction routers generalizing acc with
  | nil => cases hr
  | cons r2 rest ih =>
      simp only [addRoutersA]
      rcases List.mem_cons.mp hr with h | h
      · subst h
        apply containsKey_addRoutersA_routers
        simp [containsKey_mapInsert]
      · exact ih _ h

theorem containsKey_stepA_routers (cfg : RouterConfig)
    (fetch : String → Except String (List RouterInfo)) (upstream : Upstream)
    (acc : HTTPConfiguration) (k : String)
    (h : containsKey acc.routers k = true) :
    containsKey (stepA cfg fetch upstream acc).routers k = true := by
  rw [stepA_eq]
  by_cases hsel : selectedRouters cfg fetch upstream = []
  · simpa [hsel] using h
  · rw [if_neg hsel]
    exact containsKey_addRoutersA_routers _ _ _ _ _ h

theorem containsKey_aggregateAllA_routers (cfg : RouterConfig)
    (fetch : String → Except String (List RouterInfo)) (ups : List Upstream) :
    ∀ (acc : HTTPConfiguration) (k : String),
      containsKey acc.routers k = true →
      containsKey (aggregateAllA cfg fetch ups acc).routers k = true := by
  induction ups with
  | nil => intro acc k h; exact h
  | cons u rest ih =>
      intro acc k h
      rw [aggregateAllA_cons]
      exact ih _ _ (containsKey_stepA_routers _ _ _ _ _ h)

theorem mem_addRoutersA_routers (serviceName upstreamName : String)
    (routers : List RouterInfo) :
    ∀ (acc : HTTPConfiguration) (k : String) (v : Router),
      (k, v) ∈ (addRoutersA serviceName upstreamName routers acc).routers →
      (k, v) ∈ acc.routers ∨
        ∃ r ∈ routers,
          k = routerNameOf upstreamName r.name ∧ v = newRouterA serviceName r := by
  induction routers with
  | nil => intro acc k v h; exact Or.inl h
  | cons r2 rest ih =>
      intro acc k v h
      simp only [addRoutersA] at h
      rcases ih _ _ _ h with h2 | h2
      · rcases mem_mapInsert _ _ _ _ _ h2 with h3 | h3
        · exact Or.inr ⟨r2, List.mem_cons_self _ _, h3.1, h3.2⟩
        · exact Or.inl h3
      · obtain ⟨r, hr, hk, hv⟩ := h2
        exact Or.inr ⟨r, List.mem_cons_of_mem _ hr, hk, hv⟩

theorem mem_stepA_routers (cfg : RouterConfig)
    (fetch : String → Except String (List RouterInfo)) (upstream : Upstream)
    (acc : HTTPConfiguration) (k : String) (v : Router)
    (h : (k, v) ∈ (stepA cfg fetch upstream acc).routers) :
    (k, v) ∈ acc.routers ∨
      ∃ r ∈ selectedRouters cfg fetch upstream,
        k = routerNameOf upstream.name r.name ∧
          v = newRouterA (serviceNameOf upstream.name) r := by
  rw [stepA_eq] at h
  by_cases hsel : selectedRouters cfg fetch upstream = []
  · rw [if_pos hsel] at h; exact Or.inl h
  · rw [if_neg hsel] at h
    rcases mem_addRoutersA_routers _ _ _ _ _ _ h with h3 | h3
    · exact Or.inl h3
    · exact Or.inr h3

theorem mem_aggregateAllA_routers (cfg : RouterConfig)
    (fetch : String → Except String (List RouterInfo)) (ups : List Upstream) :
    ∀ (acc : HTTPConfiguration) (k : String) (v : Router),
      (k, v) ∈ (aggregateAllA cfg fetch ups acc).routers →
      (k, v) ∈ acc.routers ∨
        ∃ u ∈ ups, ∃ r ∈ selectedRouters cfg fetch u,
          k = routerNameOf u.name r.name ∧
            v = newRouterA (serviceNameOf u.name) r := by
  induction ups with
  | nil => intro acc k v h; exact Or.inl h
  | cons u rest ih =>
      intro acc k v h
      rw [aggregateAllA_cons] at h
      rcases ih _ _ _ h with h2 | h2
      · rcases mem_stepA_routers _ _ _ _ _ _ h2 with h3 | h3
        · exact Or.inl h3
        · obtain ⟨r, hr, hk, hv⟩ := h3
          exact Or.inr ⟨u, List.mem_cons_self _ _, r, hr, hk, hv⟩
      · obtain ⟨u2, hu, hrest⟩ := h2
        exact Or.inr ⟨u2, List.mem_cons_of_mem _ hu, hrest⟩

theorem containsKey_stepA_services (cfg : RouterConfig)
    (fetch : String → Except String (List RouterInfo)) (upstream : Upstream)
    (acc : HTTPConfiguration) (k : String)
    (h : containsKey acc.services k = true) :
    containsKey (stepA cfg fetch upstream acc).services k = true := by
  rw [stepA_eq]
  by_cases hsel : selectedRouters cfg fetch upstream = []
  · simpa [hsel] using h
  · rw [if_neg hsel, addRoutersA_services]
    simp [containsKey_mapInsert, h]

theorem mapLookup_stepA_services_ne (cfg : RouterConfig)
    (fetch : String → Except String (List RouterInfo)) (upstream : Upstream)
    (acc : HTTPConfiguration) (k : String)
    (h : serviceNameOf upstream.name ≠ k) :
    mapLookup (stepA cfg fetch upstream acc).services k
      = mapLookup acc.services k := by
  rw [stepA_eq]
  by_cases hsel : selectedRouters cfg fetch upstream = []
  · simp [hsel]
  · rw [if_neg hsel, addRoutersA_services]
    exact mapLookup_mapInsert_ne _ _ _ _ h

theorem mapLookup_aggregateAllA_services_pres (cfg : RouterConfig)
    (fetch : String → Except String (List RouterInfo)) (ups : List Upstream) :
    ∀ (acc : HTTPConfiguration) (k : String),
      (∀ u ∈ ups, serviceNameOf u.name ≠ k) →
      mapLookup (aggregateAllA cfg fetch ups acc).services k
        = mapLookup acc.services k := by
  induction ups with
  | nil => intro acc k _; rfl
  | cons u rest ih =>
      intro acc k h
      rw [aggregateAllA_cons, ih _ _ (fun w hw => h w (List.mem_cons_of_mem _ hw)),
        mapLookup_stepA_services_ne _ _ _ _ _ (h u (List.mem_cons_self _ _))]

/-! ## Field characterizations of the two router builders -/

theorem newRouterA_service (serviceName : String) (router : RouterInfo) :
    (newRouterA serviceName router).service = serviceName := by
  unfold newRouterA
  split <;> rfl

theorem newRouterA_entryPoints (serviceName : String) (router : RouterInfo) :
    (newRouterA serviceName router).entryPoints = router.entryPoints := by
  unfold newRouterA
  split <;> rfl

theorem newRouterA_middlewares (serviceName : String) (router : RouterInfo) :
    (newRouterA serviceName router).middlewares = router.middlewares := by
  unfold newRouterA
  split <;> rfl

theorem newRouterA_tls (serviceName : String) (router : RouterInfo) :
    (newRouterA serviceName router).tls = router.tls := by
  unfold newRouterA
  cases router.tls <;> simp

theorem newRouterB_service (defaults : RouterDefaults) (serviceName : String)
    (router : RouterInfo) :
    (newRouterB defaults serviceName router).service = serviceName := by
  unfold newRouterB
  split_ifs <;> rfl

theorem newRouterB_entryPoints (defaults : RouterDefaults)
    (serviceName : String) (router : RouterInfo) :
    (newRouterB defaults serviceName router).entryPoints =
      (if defaults.entryPoints ≠ [] then defaults.entryPoints else []) := by
  unfold newRouterB
  split_ifs <;> simp_all [List.length_pos]

theorem newRouterB_middlewares (defaults : RouterDefaults)
    (serviceName : String) (router : RouterInfo) :
    (newRouterB defaults serviceName router).middlewares =
      (if defaults.middlewares ≠ [] then defaults.middlewares else []) := by
  unfold newRouterB
  split_ifs <;> simp_all [List.length_pos]

theorem newRouterB_tls (defaults : RouterDefaults) (serviceName : String)
    (router : RouterInfo) :
    (newRouterB defaults serviceName router).tls =
      (if defaults.tls.isSome then defaults.tls else router.tls) := by
  unfold newRouterB
  split_ifs with h1 h2 h3 <;> simp_all

/-! ## Structure lemmas for the aggregation loop, revision B -/

theorem addRoutersB_services (defaults : RouterDefaults)
    (serviceName upstreamName : String) (routers : List RouterInfo)
    (acc : HTTPConfiguration) :
    (addRoutersB defaults serviceName upstreamName routers acc).services
      = acc.services := by
  induction routers generalizing acc with
  | nil => rfl
  | cons r rest ih => simp [addRoutersB, ih]

theorem stepB_eq (cfg : RouterConfig)
    (fetch : String → Except String (List RouterInfo)) (upstream : Upstream)
    (acc : HTTPConfiguration) :
    stepB cfg fetch upstream acc =
      if selectedRouters cfg fetch upstream = [] then acc
      else
        addRoutersB cfg.defaults (serviceNameOf upstream.name) upstream.name
          (selectedRouters cfg fetch upstream)
          { acc with
            services := mapInsert acc.services (serviceNameOf upstream.name)
              (upstreamService upstream) } := by
  unfold stepB aggregateUpstreamB selectedRouters
  cases hf : fetch upstream.name with
  | error e => simp
  | ok routers =>
      by_cases hemp :
          FilterRouters routers cfg.selector.provider cfg.selector.status = []
      · simp [hemp]
      · have hlen :
            0 < (FilterRouters routers cfg.selector.provider
              cfg.selector.status).length :=
          List.length_pos.mpr hemp
        simp [hemp, hlen]

theorem aggregateAllB_cons (cfg : RouterConfig)
    (fetch : String → Except String (List RouterInfo)) (upstream : Upstream)
    (rest : List Upstream) (acc : HTTPConfiguration) :
    aggregateAllB cfg fetch (upstream :: rest) acc =
      aggregateAllB cfg fetch rest (stepB cfg fetch upstream acc) := rfl

theorem mem_addRoutersB_routers (defaults : RouterDefaults)
    (serviceName upstreamName : String) (routers : List RouterInfo) :
    ∀ (acc : HTTPConfiguration) (k : String) (v : Router),
      (k, v) ∈
        (addRoutersB defaults serviceName upstreamName routers acc).routers →
      (k, v) ∈ acc.routers ∨
        ∃ r ∈ routers,
          k = routerNameOf upstreamName r.name ∧
            v = newRouterB defaults serviceName r := by
  induction routers with
  | nil => intro acc k v h; exact Or.inl h
  | cons r2 rest ih =>
      intro acc k v h
      simp only [addRoutersB] at h
      rcases ih _ _ _ h with h2 | h2
      · rcases mem_mapInsert _ _ _ _ _ h2 with h3 | h3
        · exact Or.inr ⟨r2, List.mem_cons_self _ _, h3.1, h3.2⟩
        · exact Or.inl h3
      · obtain ⟨r, hr, hk, hv⟩ := h2
        exact Or.inr ⟨r, List.mem_cons_of_mem _ hr, hk, hv⟩

theorem mem_stepB_routers (cfg : RouterConfig)
    (fetch : String → Except String (List RouterInfo)) (upstream : Upstream)
    (acc : HTTPConfiguration) (k : String) (v : Router)
    (h : (k, v) ∈ (stepB cfg fetch upstream acc).routers) :
    (k, v) ∈ acc.routers ∨
      ∃ r ∈ selectedRouters cfg fetch upstream,
        k = routerNameOf upstream.name r.name ∧
          v = newRouterB cfg.defaults (serviceNameOf upstream.name) r := by
  rw [stepB_eq] at h
  by_cases hsel : selectedRouters cfg fetch upstream = []
  · rw [if_pos hsel] at h; exact Or.inl h
  · rw [if_neg hsel] at h
    rcases mem_addRoutersB_routers _ _ _ _ _ _ _ h with h3 | h3
    · exact Or.inl h3
    · exact Or.inr h3

theorem mem_aggregateAllB_routers (cfg : RouterConfig)
    (fetch : String → Except String (List RouterInfo)) (ups : List Upstream) :
    ∀ (acc : HTTPConfiguration) (k : String) (v : Router),
      (k, v) ∈ (aggregateAllB cfg fetch ups acc).routers →
      (k, v) ∈ acc.routers ∨
        ∃ u ∈ ups, ∃ r ∈ selectedRouters cfg fetch u,
          k = routerNameOf u.name r.name ∧
            v = newRouterB cfg.defaults (serviceNameOf u.name) r := by
  induction ups with
  | nil => intro acc k v h; exact Or.inl h
  | cons u rest ih =>
      intro acc k v h
      rw [aggregateAllB_cons] at h
      rcases ih _ _ _ h with h2 | h2
      · rcases mem_stepB_routers _ _ _ _ _ _ h2 with h3 | h3
        · exact Or.inl h3
        · obtain ⟨r, hr, hk, hv⟩ := h3
          exact Or.inr ⟨u, List.mem_cons_self _ _, r, hr, hk, hv⟩
      · obtain ⟨u2, hu, hrest⟩ := h2
        exact Or.inr ⟨u2, List.mem_cons_of_mem _ hu, hrest⟩

/-! ## Claim C5: the selection contract -/

/-- **C5** (counterexample): the claim's selection contract demands
`status` equality unconditionally, but `FilterRouters` only enforces it
when the criteria status is non-empty.  With empty criteria status, an
enabled router survives `FilterRouters` although its status differs from
the (empty) criteria status, so `FilterRouters` disagrees with the
claim-worded `selectSpec`. -/
theorem c5_counterexample_status_filter :
    FilterRouters [exRouterWebapp] "" "" = [exRouterWebapp]
    ∧ selectSpec [exRouterWebapp] "" "" = []
    ∧ FilterRouters [exRouterWebapp] "" ""
      ≠ selectSpec [exRouterWebapp] "" "" := by
  refine ⟨by decide, by decide, by decide⟩

/-- **C5** (amended): `select` returns exactly the input routers that
(1) do not have provider `"internal"`, (2) have provider equal to
`criteria.provider` whenever that is non-empty, and (3) have status equal
to `criteria.status` **whenever that is non-empty**; survivors keep their
input order (the result is a `filter` of the input). -/
theorem c5_amended_filter_contract (routers : List RouterInfo)
    (provider status : String) :
    FilterRouters routers provider status =
      routers.filter (fun router =>
        decide (router.provider ≠ "internal")
          && (decide (provider = "") || decide (router.provider = provider))
          && (decide (status = "") || decide (router.status = status))) := by
  unfold FilterRouters
  apply List.filter_congr
  intro r _
  unfold keepRouter
  by_cases h1 : r.provider = "internal" <;>
    by_cases h2 : provider = "" <;>
      by_cases h3 : r.provider = provider <;>
        by_cases h4 : status = "" <;>
          by_cases h5 : r.status = status <;>
            simp [h1, h2, h3, h4, h5]

/-! ## Claim C2: snapshot delivery to the file writer -/

/-- **C2** (counterexample): with a snapshot already pending in the
capacity-one channel, the non-blocking send of `runAggregation` keeps the
pending snapshot and drops the new one — the opposite of the claimed
replace-pending (drop-oldest) semantics. -/
theorem c2_counterexample_send_keeps_pending :
    sendNonBlocking [emptyHTTPConfiguration] exSnapshot2
      = [emptyHTTPConfiguration]
    ∧ [emptyHTTPConfiguration] ≠ [exSnapshot2] := by
  refine ⟨rfl, by decide⟩

/-- **C2** (amended): the send into the file-writer channel never blocks
(it is a total function of the buffer), stores the snapshot when the slot
is free, and when a snapshot is already pending it keeps the pending one
and silently drops the **new** snapshot (drop-newest, not
drop-oldest-pending); the buffer never exceeds capacity one. -/
theorem c2_amended_drop_newest :
    (∀ snapshot : HTTPConfiguration, sendNonBlocking [] snapshot = [snapshot])
    ∧ (∀ pending snapshot : HTTPConfiguration,
        sendNonBlocking [pending] snapshot = [pending])
    ∧ (∀ (buffer : List HTTPConfiguration) (snapshot : HTTPConfiguration),
        (sendNonBlocking buffer snapshot).length
          ≤ max buffer.length fileChanCapacity) := by
  refine ⟨fun s => rfl, fun p s => rfl, fun buffer s => ?_⟩
  by_cases h : buffer.length < fileChanCapacity
  · rw [sendNonBlocking, if_pos h, List.length_append]
    have h2 : buffer.length < 1 := h
    simp
    omega
  · rw [sendNonBlocking, if_neg h]
    exact le_max_left _ _

/-! ## Claim C4: the published router key -/

theorem c4_aux_key_in_output (cfg : RouterConfig)
    (fetch : String → Except String (List RouterInfo)) :
    ∀ (ups : List Upstream) (acc : HTTPConfiguration) (u : Upstream)
      (r : RouterInfo), u ∈ ups → r ∈ selectedRouters cfg fetch u →
      containsKey (aggregateAllA cfg fetch ups acc).routers
        (routerNameOf u.name r.name) = true := by
  intro ups
  induction ups with
  | nil => intro acc u r hu; cases hu
  | cons w rest ih =>
      intro acc u r hu hr
      rw [aggregateAllA_cons]
      rcases List.mem_cons.mp hu with hu1 | hu1
      · subst hu1
        apply containsKey_aggregateAllA_routers
        rw [stepA_eq]
        have hsel : selectedRouters cfg fetch u ≠ [] := fun he => by
          rw [he] at hr; cases hr
        rw [if_neg hsel]
        exact containsKey_addRoutersA_of_mem _ _ _ _ _ hr
      · exact ih _ u r hu1 hr

/-- **C4**: every router surviving selection from upstream `U` with remote
name `R` is published under the key `U ++ "-" ++ (R with everything from
the first '@' onward removed)`: the key equals that shape (via
`takeWhile`), the key is present in the cycle's output, and concretely a
remote router `"memos@docker"` from upstream `"host1"` is published as
`"host1-memos"`. -/
theorem c4_router_naming (upstreams : List Upstream) (cfg : RouterConfig)
    (fetch : String → Except String (List RouterInfo)) (u : Upstream)
    (r : RouterInfo) (hu : u ∈ upstreams)
    (hr : r ∈ selectedRouters cfg fetch u) :
    routerNameOf u.name r.name
      = u.name ++ "-" ++ String.mk (r.name.data.takeWhile (fun c => c != '@'))
    ∧ containsKey
        (aggregateAllA cfg fetch upstreams emptyHTTPConfiguration).routers
        (routerNameOf u.name r.name) = true
    ∧ routerNameOf "host1" "memos@docker" = "host1-memos" := by
  refine ⟨?_, c4_aux_key_in_output cfg fetch upstreams _ u r hu hr, by decide⟩
  unfold routerNameOf
  rw [baseNameOf_eq_takeWhile]

/-- **C4** (witness): the naming theorem applied to upstream `host1` and
the surviving router `webapp@docker`. -/
theorem c4_router_naming_witness :
    exUpstream1 ∈ [exUpstream1, exUpstream2]
    ∧ exRouterWebapp ∈ selectedRouters exCfgEmptyDefaults exFetchBoth exUpstream1
    ∧ containsKey
        (aggregateAllA exCfgEmptyDefaults exFetchBoth [exUpstream1, exUpstream2]
          emptyHTTPConfiguration).routers
        (routerNameOf exUpstream1.name exRouterWebapp.name) = true :=
  ⟨by decide, by decide,
    (c4_router_naming [exUpstream1, exUpstream2] exCfgEmptyDefaults exFetchBoth
      exUpstream1 exRouterWebapp (by decide) (by decide)).2.1⟩

/-! ## Claim C9: determinism of one aggregation cycle -/

theorem selectedRouters_congr (cfg : RouterConfig)
    (fetch1 fetch2 : String → Except String (List RouterInfo))
    (upstream : Upstream) (h : ∀ name, fetch1 name = fetch2 name) :
    selectedRouters cfg fetch1 upstream = selectedRouters cfg fetch2 upstream := by
  unfold selectedRouters
  rw [h upstream.name]

theorem stepA_congr (cfg : RouterConfig)
    (fetch1 fetch2 : String → Except String (List RouterInfo))
    (upstream : Upstream) (acc : HTTPConfiguration)
    (h : ∀ name, fetch1 name = fetch2 name) :
    stepA cfg fetch1 upstream acc = stepA cfg fetch2 upstream acc := by
  rw [stepA_eq, stepA_eq, selectedRouters_congr cfg fetch1 fetch2 upstream h]

theorem aggregateAllA_congr (cfg : RouterConfig)
    (fetch1 fetch2 : String → Except String (List RouterInfo))
    (h : ∀ name, fetch1 name = fetch2 name) :
    ∀ (ups : List Upstream) (acc : HTTPConfiguration),
      aggregateAllA cfg fetch1 ups acc = aggregateAllA cfg fetch2 ups acc := by
  intro ups
  induction ups with
  | nil => intro acc; rfl
  | cons u rest ih =>
      intro acc
      rw [aggregateAllA_cons, aggregateAllA_cons,
        stepA_congr cfg fetch1 fetch2 u acc h, ih]

/-- **C9**: running `Aggregate` twice over the same configuration with
identical upstream responses (two fetches that agree on every upstream
name) yields structurally identical configurations: the same association
of router keys to routers and of service keys to services. -/
theorem c9_idempotent_aggregation (upstreams : List Upstream)
    (cfg : RouterConfig)
    (fetch1 fetch2 : String → Except String (List RouterInfo))
    (h : ∀ name, fetch1 name = fetch2 name) :
    AggregateA upstreams cfg fetch1 = AggregateA upstreams cfg fetch2 := by
  unfold AggregateA
  rw [aggregateAllA_congr cfg fetch1 fetch2 h]

/-- **C9** (witness): two syntactically different fetches with identical
responses produce identical outputs. -/
theorem c9_idempotent_aggregation_witness :
    (∀ name, exFetchBoth name = exFetchBothSwapped name)
    ∧ AggregateA [exUpstream1, exUpstream2] exCfgFullDefaults exFetchBoth
      = AggregateA [exUpstream1, exUpstream2] exCfgFullDefaults
          exFetchBothSwapped := by
  have h : ∀ name, exFetchBoth name = exFetchBothSwapped name := by
    intro name
    unfold exFetchBoth exFetchBothSwapped
    by_cases h1 : name = "host1"
    · subst h1
      simp
    · by_cases h2 : name = "host2"
      · subst h2
        simp
      · simp [h1, h2]
  exact ⟨h, c9_idempotent_aggregation [exUpstream1, exUpstream2]
    exCfgFullDefaults exFetchBoth exFetchBothSwapped h⟩

/-! ## Claim C6: failure isolation -/

theorem selectedRouters_of_error (cfg : RouterConfig)
    (fetch : String → Except String (List RouterInfo)) (upstream : Upstream)
    (h : (fetch upstream.name).isOk = false) :
    selectedRouters cfg fetch upstream = [] := by
  unfold selectedRouters
  cases hf : fetch upstream.name with
  | error e => rfl
  | ok routers =>
      rw [hf] at h
      exact absurd h (by simp [Except.isOk, Except.toBool])

theorem aggregateAllA_filter_ok (cfg : RouterConfig)
    (fetch : String → Except String (List RouterInfo)) :
    ∀ (ups : List Upstream) (acc : HTTPConfiguration),
      aggregateAllA cfg fetch ups acc
        = aggregateAllA cfg fetch
            (ups.filter (fun u => (fetch u.name).isOk)) acc := by
  intro ups
  induction ups with
  | nil => intro acc; rfl
  | cons u rest ih =>
      intro acc
      by_cases h : (fetch u.name).isOk = true
      · have hfil : List.filter (fun w => (fetch w.name).isOk) (u :: rest)
            = u :: List.filter (fun w => (fetch w.name).isOk) rest :=
          List.filter_cons_of_pos h
        rw [hfil, aggregateAllA_cons, aggregateAllA_cons]
        exact ih _
      · have h2 : (fetch u.name).isOk = false := by
          cases hf : (fetch u.name).isOk
          · rfl
          · exact absurd hf h
        have hfil : List.filter (fun w => (fetch w.name).isOk) (u :: rest)
            = List.filter (fun w => (fetch w.name).isOk) rest :=
          List.filter_cons_of_neg h
        rw [hfil, aggregateAllA_cons]
        have hstep : stepA cfg fetch u acc = acc := by
          rw [stepA_eq, if_pos (selectedRouters_of_error cfg fetch u h2)]
        rw [hstep]
        exact ih _

/-- **C6**: `Aggregate` never returns an error; a cycle's output equals
the output over only the upstreams whose fetch succeeded (so a failed
upstream contributes zero routers and zero services while the successful
upstreams' entries are unaffected); and a cycle in which every upstream
fails yields the empty configuration, not an error. -/
theorem c6_failure_isolation (upstreams : List Upstream) (cfg : RouterConfig)
    (fetch : String → Except String (List RouterInfo)) :
    (AggregateA upstreams cfg fetch).isOk = true
    ∧ AggregateA upstreams cfg fetch
        = AggregateA (upstreams.filter (fun u => (fetch u.name).isOk)) cfg fetch
    ∧ ((∀ u ∈ upstreams, (fetch u.name).isOk = false) →
        AggregateA upstreams cfg fetch = .ok emptyHTTPConfiguration) := by
  refine ⟨rfl, ?_, ?_⟩
  · unfold AggregateA
    rw [← aggregateAllA_filter_ok]
  · intro h
    unfold AggregateA
    rw [aggregateAllA_filter_ok]
    have hnil : upstreams.filter (fun u => (fetch u.name).isOk) = [] :=
      List.filter_eq_nil_iff.mpr (fun u hu => by simp [h u hu])
    rw [hnil]
    rfl

/-- **C6** (witness): with every upstream failing, the cycle completes
with the empty configuration. -/
theorem c6_failure_isolation_witness :
    (∀ u ∈ [exUpstream1, exUpstream2], (exFetchFail u.name).isOk = false)
    ∧ AggregateA [exUpstream1, exUpstream2] exCfgEmptyDefaults exFetchFail
      = .ok emptyHTTPConfiguration :=
  ⟨by decide,
    (c6_failure_isolation [exUpstream1, exUpstream2] exCfgEmptyDefaults
      exFetchFail).2.2 (by decide)⟩

/-! ## Claim C1: the replace-or-drop policy for entry points and
middlewares -/

/-- **C1** (counterexample): in the `aggregator.go` revision of
`aggregateUpstream` — the one reached from `Aggregate` in package
`aggregator` — the configured defaults are never consulted: with empty
`defaults.entryPoints` the published router keeps the remote router's own
entry points `["web"]` instead of the empty sequence the claim demands
(and likewise keeps the remote middlewares). -/
theorem c1_counterexample_entrypoints_copied :
    exCfgEmptyDefaults.defaults.entryPoints = []
    ∧ mapLookup (aggregateAllA exCfgEmptyDefaults exFetchBoth [exUpstream1]
        emptyHTTPConfiguration).routers "host1-webapp"
      = some { entryPoints := ["web"], middlewares := ["compress"]
               rule := "Host(app)", service := "host1-traefik", tls := none }
    ∧ (["web"] : List String) ≠ [] := by
  refine ⟨rfl, by decide, by decide⟩

/-- **C1** (amended): the replace-or-drop policy holds for the revision of
`aggregateUpstream` that applies configured defaults (the one embedded in
`config.go`): every router it publishes carries `defaults.entryPoints`
when that sequence is non-empty and no entry points otherwise, and the
same for middlewares.  The `aggregator.go` revision instead copies the
remote router's entry points and middlewares verbatim. -/
theorem c1_amended_replace_or_drop :
    (∀ (upstreams : List Upstream) (cfg : RouterConfig)
        (fetch : String → Except String (List RouterInfo)) (k : String)
        (v : Router),
      (k, v) ∈ (aggregateAllB cfg fetch upstreams emptyHTTPConfiguration).routers →
      v.entryPoints
          = (if cfg.defaults.entryPoints ≠ [] then cfg.defaults.entryPoints
             else [])
        ∧ v.middlewares
          = (if cfg.defaults.middlewares ≠ [] then cfg.defaults.middlewares
             else []))
    ∧ (∀ (serviceName : String) (router : RouterInfo),
        (newRouterA serviceName router).entryPoints = router.entryPoints
        ∧ (newRouterA serviceName router).middlewares = router.middlewares) := by
  constructor
  · intro ups cfg fetch k v h
    rcases mem_aggregateAllB_routers cfg fetch ups _ _ _ h with h2 | h2
    · cases h2
    · obtain ⟨u, _, r, _, _, hv⟩ := h2
      subst hv
      exact ⟨newRouterB_entryPoints _ _ _, newRouterB_middlewares _ _ _⟩
  · intro s r
    exact ⟨newRouterA_entryPoints s r, newRouterA_middlewares s r⟩

/-- **C1** (witness): with non-empty defaults, the router published by the
defaults-applying revision carries exactly the default entry points and
middlewares. -/
theorem c1_amended_witness :
    ("host1-webapp",
      ({ entryPoints := ["websecure"], middlewares := ["auth"]
         rule := "Host(app)", service := "host1-traefik"
         tls := some exTLS } : Router))
      ∈ (aggregateAllB exCfgFullDefaults exFetchBoth [exUpstream1]
          emptyHTTPConfiguration).routers
    ∧ ({ entryPoints := ["websecure"], middlewares := ["auth"]
         rule := "Host(app)", service := "host1-traefik"
         tls := some exTLS } : Router).entryPoints
      = (if exCfgFullDefaults.defaults.entryPoints ≠ []
         then exCfgFullDefaults.defaults.entryPoints else []) :=
  ⟨by decide,
    (c1_amended_replace_or_drop.1 [exUpstream1] exCfgFullDefaults exFetchBoth
      "host1-webapp" _ (by decide)).1⟩

/-! ## Claim C7: the TLS precedence -/

/-- **C7** (counterexample): in the `aggregator.go` revision of
`aggregateUpstream`, `defaults.tlsConfig` never wins — with a configured
default TLS and a router without its own TLS, the published router carries
no TLS reference instead of the default. -/
theorem c7_counterexample_default_tls_ignored :
    exCfgFullDefaults.defaults.tls = some exTLS
    ∧ mapLookup (aggregateAllA exCfgFullDefaults exFetchBoth [exUpstream1]
        emptyHTTPConfiguration).routers "host1-webapp"
      = some { entryPoints := ["web"], middlewares := ["compress"]
               rule := "Host(app)", service := "host1-traefik", tls := none }
    ∧ (none : Option RouterTLSConfig) ≠ some exTLS := by
  refine ⟨rfl, by decide, by decide⟩

/-- **C7** (amended): the claimed precedence — defaults win when present,
else the remote router's own TLS, else no TLS reference — holds for the
defaults-applying revision of `aggregateUpstream` (embedded in
`config.go`), both at the router-builder level and for every router
published by a cycle; the `aggregator.go` revision instead always carries
exactly the remote router's own TLS. -/
theorem c7_amended_tls_precedence :
    (∀ (defaults : RouterDefaults) (serviceName : String)
        (router : RouterInfo),
      (newRouterB defaults serviceName router).tls
        = (if defaults.tls.isSome then defaults.tls else router.tls))
    ∧ (∀ (upstreams : List Upstream) (cfg : RouterConfig)
        (fetch : String → Except String (List RouterInfo)) (k : String)
        (v : Router),
      (k, v) ∈ (aggregateAllB cfg fetch upstreams emptyHTTPConfiguration).routers →
      cfg.defaults.tls.isSome = true → v.tls = cfg.defaults.tls)
    ∧ (∀ (serviceName : String) (router : RouterInfo),
        (newRouterA serviceName router).tls = router.tls) := by
  refine ⟨fun d s r => newRouterB_tls d s r, ?_, fun s r => newRouterA_tls s r⟩
  intro ups cfg fetch k v h hsome
  rcases mem_aggregateAllB_routers cfg fetch ups _ _ _ h with h2 | h2
  · cases h2
  · obtain ⟨u, _, r, _, _, hv⟩ := h2
    subst hv
    rw [newRouterB_tls, if_pos hsome]

/-- **C7** (witness): with `defaults.tlsConfig = {certResolver:
"letsencrypt"}` and a router without its own TLS, the published router of
the defaults-applying revision carries the default TLS reference. -/
theorem c7_amended_witness :
    ("host1-webapp",
      ({ entryPoints := ["websecure"], middlewares := ["auth"]
         rule := "Host(app)", service := "host1-traefik"
         tls := some exTLS } : Router))
      ∈ (aggregateAllB exCfgFullDefaults exFetchBoth [exUpstream1]
          emptyHTTPConfiguration).routers
    ∧ exCfgFullDefaults.defaults.tls.isSome = true
    ∧ ({ entryPoints := ["websecure"], middlewares := ["auth"]
         rule := "Host(app)", service := "host1-traefik"
         tls := some exTLS } : Router).tls = exCfgFullDefaults.defaults.tls :=
  ⟨by decide, by decide,
    c7_amended_tls_precedence.2.1 [exUpstream1] exCfgFullDefaults exFetchBoth
      "host1-webapp" _ (by decide) (by decide)⟩

/-! ## Claim C10: referential integrity of the published configuration -/

theorem containsKey_stepB_services (cfg : RouterConfig)
    (fetch : String → Except String (List RouterInfo)) (upstream : Upstream)
    (acc : HTTPConfiguration) (k : String)
    (h : containsKey acc.services k = true) :
    containsKey (stepB cfg fetch upstream acc).services k = true := by
  rw [stepB_eq]
  by_cases hsel : selectedRouters cfg fetch upstream = []
  · simpa [hsel] using h
  · rw [if_neg hsel, addRoutersB_services]
    simp [containsKey_mapInsert, h]

theorem stepA_integrity (cfg : RouterConfig)
    (fetch : String → Except String (List RouterInfo)) (upstream : Upstream)
    (acc : HTTPConfiguration)
    (h : ∀ k v, (k, v) ∈ acc.routers →
      containsKey acc.services v.service = true) :
    ∀ k v, (k, v) ∈ (stepA cfg fetch upstream acc).routers →
      containsKey (stepA cfg fetch upstream acc).services v.service = true := by
  intro k v hmem
  rcases mem_stepA_routers cfg fetch upstream acc k v hmem with h2 | h2
  · exact containsKey_stepA_services cfg fetch upstream acc _ (h k v h2)
  · obtain ⟨r, hr, _, hv⟩ := h2
    subst hv
    rw [newRouterA_service, stepA_eq]
    have hsel : selectedRouters cfg fetch upstream ≠ [] := fun he => by
      rw [he] at hr; cases hr
    rw [if_neg hsel, addRoutersA_services]
    simp [containsKey_mapInsert]

theorem aggregateAllA_integrity (cfg : RouterConfig)
    (fetch : String → Except String (List RouterInfo)) :
    ∀ (ups : List Upstream) (acc : HTTPConfiguration),
      (∀ k v, (k, v) ∈ acc.routers →
        containsKey acc.services v.service = true) →
      ∀ k v, (k, v) ∈ (aggregateAllA cfg fetch ups acc).routers →
        containsKey (aggregateAllA cfg fetch ups acc).services v.service
          = true := by
  intro ups
  induction ups with
  | nil => intro acc h k v hmem; exact h k v hmem
  | cons u rest ih =>
      intro acc h k v hmem
      rw [aggregateAllA_cons] at hmem ⊢
      exact ih _ (stepA_integrity cfg fetch u acc h) k v hmem

theorem stepB_integrity (cfg : RouterConfig)
    (fetch : String → Except String (List RouterInfo)) (upstream : Upstream)
    (acc : HTTPConfiguration)
    (h : ∀ k v, (k, v) ∈ acc.routers →
      containsKey acc.services v.service = true) :
    ∀ k v, (k, v) ∈ (stepB cfg fetch upstream acc).routers →
      containsKey (stepB cfg fetch upstream acc).services v.service = true := by
  intro k v hmem
  rcases mem_stepB_routers cfg fetch upstream acc k v hmem with h2 | h2
  · exact containsKey_stepB_services cfg fetch upstream acc _ (h k v h2)
  · obtain ⟨r, hr, _, hv⟩ := h2
    subst hv
    rw [newRouterB_service, stepB_eq]
    have hsel : selectedRouters cfg fetch upstream ≠ [] := fun he => by
      rw [he] at hr; cases hr
    rw [if_neg hsel, addRoutersB_services]
    simp [containsKey_mapInsert]

theorem aggregateAllB_integrity (cfg : RouterConfig)
    (fetch : String → Except String (List RouterInfo)) :
    ∀ (ups : List Upstream) (acc : HTTPConfiguration),
      (∀ k v, (k, v) ∈ acc.routers →
        containsKey acc.services v.service = true) →
      ∀ k v, (k, v) ∈ (aggregateAllB cfg fetch ups acc).routers →
        containsKey (aggregateAllB cfg fetch ups acc).services v.service
          = true := by
  intro ups
  induction ups with
  | nil => intro acc h k v hmem; exact h k v hmem
  | cons u rest ih =>
      intro acc h k v hmem
      rw [aggregateAllB_cons] at hmem ⊢
      exact ih _ (stepB_integrity cfg fetch u acc h) k v hmem

/-- **C10**: in every configuration produced by one aggregation cycle —
under either revision of `aggregateUpstream` — every published router's
service name is a key of that same configuration's services map: a
published router never references a missing service. -/
theorem c10_referential_integrity (upstreams : List Upstream)
    (cfg : RouterConfig)
    (fetch : String → Except String (List RouterInfo)) (k : String)
    (v : Router) :
    ((k, v) ∈ (aggregateAllA cfg fetch upstreams emptyHTTPConfiguration).routers →
      containsKey
        (aggregateAllA cfg fetch upstreams emptyHTTPConfiguration).services
        v.service = true)
    ∧ ((k, v) ∈ (aggregateAllB cfg fetch upstreams emptyHTTPConfiguration).routers →
      containsKey
        (aggregateAllB cfg fetch upstreams emptyHTTPConfiguration).services
        v.service = true) :=
  ⟨fun h => aggregateAllA_integrity cfg fetch upstreams emptyHTTPConfiguration
      (fun _ _ hm => by cases hm) k v h,
   fun h => aggregateAllB_integrity cfg fetch upstreams emptyHTTPConfiguration
      (fun _ _ hm => by cases hm) k v h⟩

/-- **C10** (witness): the published router `host1-webapp` references the
service `host1-traefik`, which is indeed a key of the published services
map. -/
theorem c10_referential_integrity_witness :
    ("host1-webapp",
      ({ entryPoints := ["web"], middlewares := ["compress"]
         rule := "Host(app)", service := "host1-traefik"
         tls := none } : Router))
      ∈ (aggregateAllA exCfgEmptyDefaults exFetchBoth [exUpstream1, exUpstream2]
          emptyHTTPConfiguration).routers
    ∧ containsKey
        (aggregateAllA exCfgEmptyDefaults exFetchBoth [exUpstream1, exUpstream2]
          emptyHTTPConfiguration).services "host1-traefik" = true :=
  ⟨by decide,
    (c10_referential_integrity [exUpstream1, exUpstream2] exCfgEmptyDefaults
      exFetchBoth "host1-webapp"
      { entryPoints := ["web"], middlewares := ["compress"]
        rule := "Host(app)", service := "host1-traefik"
        tls := none }).1 (by decide)⟩

/-! ## Claim C8: one service per contributing upstream -/

theorem c8_aux (cfg : RouterConfig)
    (fetch : String → Except String (List RouterInfo)) :
    ∀ (ups : List Upstream) (acc : HTTPConfiguration) (u : Upstream),
      (ups.map Upstream.name).Nodup → u ∈ ups →
      containsKey acc.services (serviceNameOf u.name) = false →
      ((containsKey (aggregateAllA cfg fetch ups acc).services
          (serviceNameOf u.name) = true ↔ selectedRouters cfg fetch u ≠ [])
       ∧ (selectedRouters cfg fetch u ≠ [] →
          mapLookup (aggregateAllA cfg fetch ups acc).services
            (serviceNameOf u.name) = some (upstreamService u))) := by
  intro ups
  induction ups with
  | nil => intro acc u _ hu; cases hu
  | cons w rest ih =>
      intro acc u hnodup hu hfresh
      rw [List.map_cons, List.nodup_cons] at hnodup
      rw [aggregateAllA_cons]
      rcases List.mem_cons.mp hu with hu1 | hu1
      · subst hu1
        have hdiff : ∀ x ∈ rest, serviceNameOf x.name ≠ serviceNameOf u.name := by
          intro x hx heq
          exact hnodup.1
            (serviceNameOf_inj x.name u.name heq ▸
              List.mem_map_of_mem Upstream.name hx)
        have hpres := mapLookup_aggregateAllA_services_pres cfg fetch rest
          (stepA cfg fetch u acc) (serviceNameOf u.name) hdiff
        by_cases hsel : selectedRouters cfg fetch u = []
        · have hstep : stepA cfg fetch u acc = acc := by
            rw [stepA_eq, if_pos hsel]
          rw [hstep] at hpres
          rw [hstep]
          rw [containsKey_eq_isSome] at hfresh
          constructor
          · rw [containsKey_eq_isSome, hpres, hfresh]
            simp [hsel]
          · intro hne
            exact absurd hsel hne
        · have hstep : mapLookup (stepA cfg fetch u acc).services
              (serviceNameOf u.name) = some (upstreamService u) := by
            rw [stepA_eq, if_neg hsel, addRoutersA_services,
              mapLookup_mapInsert_self]
          rw [hstep] at hpres
          constructor
          · rw [containsKey_eq_isSome, hpres]
            simp [hsel]
          · intro _
            exact hpres
      · have hwname : w.name ≠ u.name := fun he =>
          hnodup.1 (he ▸ List.mem_map_of_mem Upstream.name hu1)
        have hfresh2 : containsKey (stepA cfg fetch w acc).services
            (serviceNameOf u.name) = false := by
          rw [stepA_eq]
          by_cases hselw : selectedRouters cfg fetch w = []
          · rw [if_pos hselw]
            exact hfresh
          · rw [if_neg hselw, addRoutersA_services, containsKey_mapInsert]
            have hne : serviceNameOf w.name ≠ serviceNameOf u.name := fun he =>
              hwname (serviceNameOf_inj _ _ he)
            simp [hne, hfresh]
        exact ih (stepA cfg fetch w acc) u hnodup.2 hu1 hfresh2

/-- **C8**: for every upstream `U` of a configuration with pairwise
distinct upstream names, the cycle output contains a service keyed
`U.name ++ "-traefik"` exactly when `U`'s selected router set is non-empty;
when it does, that service is `U`'s upstream service, which carries exactly
one load-balancer target, `U`'s server endpoint. -/
theorem c8_service_per_upstream (upstreams : List Upstream)
    (cfg : RouterConfig)
    (fetch : String → Except String (List RouterInfo)) (u : Upstream)
    (hnames : (upstreams.map Upstream.name).Nodup) (hu : u ∈ upstreams) :
    (containsKey
        (aggregateAllA cfg fetch upstreams emptyHTTPConfiguration).services
        (serviceNameOf u.name) = true ↔ selectedRouters cfg fetch u ≠ [])
    ∧ (selectedRouters cfg fetch u ≠ [] →
        mapLookup
          (aggregateAllA cfg fetch upstreams emptyHTTPConfiguration).services
          (serviceNameOf u.name) = some (upstreamService u))
    ∧ (upstreamService u).loadBalancer
      = some { servers := [{ url := u.serverURL }] } := by
  obtain ⟨h1, h2⟩ := c8_aux cfg fetch upstreams emptyHTTPConfiguration u
    hnames hu rfl
  exact ⟨h1, h2, rfl⟩

/-- **C8** (witness): `host1` has a non-empty selected set, so the output
carries the service `host1-traefik` pointing at `http://10.0.0.1:80`. -/
theorem c8_service_per_upstream_witness :
    (selectedRouters exCfgEmptyDefaults exFetchBoth exUpstream1 ≠ [])
    ∧ mapLookup
        (aggregateAllA exCfgEmptyDefaults exFetchBoth [exUpstream1, exUpstream2]
          emptyHTTPConfiguration).services
        (serviceNameOf exUpstream1.name) = some (upstreamService exUpstream1) :=
  ⟨by decide,
    (c8_service_per_upstream [exUpstream1, exUpstream2] exCfgEmptyDefaults
      exFetchBoth exUpstream1 (by decide) (by decide)).2.1 (by decide)⟩

/-! ## Claim C3: uniqueness of the published router keys -/

/-- **C3** (counterexample): with a single upstream (unique name) whose two
remote routers have distinct names `x@docker` and `x@file`, the
provider-suffix trim maps both to base name `x`, so one cycle assigns the
key `host1-x` twice: the published keys are not pairwise distinct, and the
second assignment silently overwrites the first (the routers map ends up
with one entry for two selected routers). -/
theorem c3_counterexample_key_collision :
    ([exUpstream1].map Upstream.name).Nodup
    ∧ ([exRouterXDocker, exRouterXFile].map RouterInfo.name).Nodup
    ∧ exFetchCollide "host1" = .ok [exRouterXDocker, exRouterXFile]
    ∧ publishedRouterKeys [exUpstream1] exCfgEmptyDefaults exFetchCollide
      = ["host1-x", "host1-x"]
    ∧ ¬ (publishedRouterKeys [exUpstream1] exCfgEmptyDefaults
        exFetchCollide).Nodup
    ∧ (aggregateAllA exCfgEmptyDefaults exFetchCollide [exUpstream1]
        emptyHTTPConfiguration).routers.length = 1 := by
  refine ⟨by decide, by decide, rfl, by decide, by decide, by decide⟩

/-- **C3** (amended): the published router keys of one cycle are pairwise
distinct provided that, beyond unique upstream names, (a) upstream names
contain no `'-'` character and (b) within each upstream the selected
routers' provider-stripped **base** names (not merely their full remote
names) are pairwise distinct. -/
theorem c3_amended_key_uniqueness (upstreams : List Upstream)
    (cfg : RouterConfig)
    (fetch : String → Except String (List RouterInfo))
    (hnames : (upstreams.map Upstream.name).Nodup)
    (hhyphen : ∀ u ∈ upstreams, '-' ∉ u.name.data)
    (hbase : ∀ u ∈ upstreams, (upstreamBaseNames cfg fetch u).Nodup) :
    (publishedRouterKeys upstreams cfg fetch).Nodup := by
  unfold publishedRouterKeys
  rw [List.nodup_flatMap]
  constructor
  · intro u hu
    unfold upstreamRouterKeys
    have hmm : (selectedRouters cfg fetch u).map
        (fun r => routerNameOf u.name r.name)
      = ((selectedRouters cfg fetch u).map (fun r => baseNameOf r.name)).map
          (fun b => u.name ++ "-" ++ b) := by
      rw [List.map_map]
      rfl
    rw [hmm]
    refine List.Nodup.map ?_ (hbase u hu)
    intro b1 b2 h
    exact string_append_cancel_left (u.name ++ "-") b1 b2 h
  · have hpw : upstreams.Pairwise (fun a b => a.name ≠ b.name) :=
      List.pairwise_map.mp hnames
    refine hpw.imp_of_mem ?_
    intro a b ha hb hne
    intro k hk1 hk2
    unfold upstreamRouterKeys at hk1 hk2
    obtain ⟨r1, _, hr1⟩ := List.mem_map.mp hk1
    obtain ⟨r2, _, hr2⟩ := List.mem_map.mp hk2
    unfold routerNameOf at hr1 hr2
    have hab := append_hyphen_inj a.name b.name (baseNameOf r1.name)
      (baseNameOf r2.name) (hhyphen a ha) (hhyphen b hb) (hr1.trans hr2.symm)
    exact hne hab.1

/-- **C3** (witness): two upstreams with hyphen-free unique names, each
selecting one router, yield pairwise distinct published keys. -/
theorem c3_amended_key_uniqueness_witness :
    ([exUpstream1, exUpstream2].map Upstream.name).Nodup
    ∧ (∀ u ∈ [exUpstream1, exUpstream2], '-' ∉ u.name.data)
    ∧ (∀ u ∈ [exUpstream1, exUpstream2],
        (upstreamBaseNames exCfgEmptyDefaults exFetchBoth u).Nodup)
    ∧ (publishedRouterKeys [exUpstream1, exUpstream2] exCfgEmptyDefaults
        exFetchBoth).Nodup :=
  ⟨by decide, by decide, by decide,
    c3_amended_key_uniqueness [exUpstream1, exUpstream2] exCfgEmptyDefaults
      exFetchBoth (by decide) (by decide) (by decide)⟩

end TraefikFed
